import Mathlib

set_option maxHeartbeats 1000000

/-!
Shallow embedding of the Logger repository (src/logger.h, first variant, lines 1-402):
a bounded ring-buffer logger with one background writer thread, level filtering,
calendar-based file rotation and Windows file output.  External services
(wall clock, file system, thread creation) are passed in as explicit parameters.
-/

namespace CLogger

/-- Log severity levels, src/logger.h lines 12-14 (`enum Level`). -/
inductive Level where
  | LOG_DEBUG
  | LOG_INFO
  | LOG_WARN
  | LOG_ERROR
deriving DecidableEq, Repr

/-- Numeric value of a `Level`, as the C++ enum value used by `msgLevel < level`. -/
def Level.toNat : Level → Nat
  | .LOG_DEBUG => 0
  | .LOG_INFO => 1
  | .LOG_WARN => 2
  | .LOG_ERROR => 3

/-- Rotation granularities, src/logger.h lines 16-21 (`enum RotationKind`). -/
inductive RotationKind where
  | ROTATE_MINUTELY
  | ROTATE_HOURLY
  | ROTATE_DAILY
  | ROTATE_NEVER
deriving DecidableEq, Repr

/-- The calendar fields of a Windows `SYSTEMTIME` that the logger reads. -/
structure SYSTEMTIME where
  wYear : Nat
  wMonth : Nat
  wDay : Nat
  wHour : Nat
  wMinute : Nat
  wSecond : Nat
  wMilliseconds : Nat
deriving DecidableEq, Repr

/-- Zero-padded decimal rendering, modelling `sprintf` with a `%0wd` conversion
(all fields involved are unsigned `WORD`s, so no sign handling is needed). -/
def padNum (w : Nat) (n : Nat) : String :=
  let s := toString n
  String.mk (List.replicate (w - s.length) '0') ++ s

/-- `Logger::levelToString`, src/logger.h lines 290-298.  The `default` branch of
the C++ switch is unreachable for in-range enum values and is not modelled. -/
def levelToString : Level → String
  | .LOG_DEBUG => "DEBUG"
  | .LOG_INFO => "INFO"
  | .LOG_WARN => "WARN"
  | .LOG_ERROR => "ERROR"

/-- `Logger::currentTime`, src/logger.h lines 312-319: the clock reading obtained
from `GetLocalTime` is the parameter `st`; the result is the string produced by
`sprintf_s(buffer, "%04d-%02d-%02dT%02d:%02d:%02d.%03d", ...)`. -/
def currentTime (st : SYSTEMTIME) : String :=
  padNum 4 st.wYear ++ "-" ++ padNum 2 st.wMonth ++ "-" ++ padNum 2 st.wDay ++ "T" ++
    padNum 2 st.wHour ++ ":" ++ padNum 2 st.wMinute ++ ":" ++ padNum 2 st.wSecond ++ "." ++
    padNum 3 st.wMilliseconds

/-- The record text built by `Logger::log`, src/logger.h line 334:
`currentTime() + " [" + levelToString(msgLevel) + "] " + utf8Message + "\n"`. -/
def formatLogLine (st : SYSTEMTIME) (msgLevel : Level) (message : String) : String :=
  currentTime st ++ " [" ++ levelToString msgLevel ++ "] " ++ message ++ "\n"

/-- The rotation decision of `Logger::checkRotation`, src/logger.h lines 190-227:
the early return for `ROTATE_NEVER` plus the `switch` computing `shouldRotate`. -/
def shouldRotate (rotationKind : RotationKind) (last now : SYSTEMTIME) : Bool :=
  match rotationKind with
  | .ROTATE_MINUTELY =>
      now.wMinute != last.wMinute || now.wHour != last.wHour || now.wDay != last.wDay ||
        now.wMonth != last.wMonth || now.wYear != last.wYear
  | .ROTATE_HOURLY =>
      now.wHour != last.wHour || now.wDay != last.wDay ||
        now.wMonth != last.wMonth || now.wYear != last.wYear
  | .ROTATE_DAILY =>
      now.wDay != last.wDay || now.wMonth != last.wMonth || now.wYear != last.wYear
  | .ROTATE_NEVER => false

/-- `Logger::generateLogFileName`, src/logger.h lines 263-288: the timestamp
switch followed by `sprintf_s` of either `"%s\\%s_%s.log"` or `"%s\\%s.log"`. -/
def generateLogFileName (logDir logFileName : String) (rotationKind : RotationKind)
    (time : SYSTEMTIME) : String :=
  let timestamp :=
    match rotationKind with
    | .ROTATE_MINUTELY =>
        padNum 4 time.wYear ++ padNum 2 time.wMonth ++ padNum 2 time.wDay ++ "_" ++
          padNum 2 time.wHour ++ padNum 2 time.wMinute
    | .ROTATE_HOURLY =>
        padNum 4 time.wYear ++ padNum 2 time.wMonth ++ padNum 2 time.wDay ++ "_" ++
          padNum 2 time.wHour
    | .ROTATE_DAILY =>
        padNum 4 time.wYear ++ padNum 2 time.wMonth ++ padNum 2 time.wDay
    | .ROTATE_NEVER => ""
  if rotationKind != .ROTATE_NEVER then
    logDir ++ "\\" ++ logFileName ++ "_" ++ timestamp ++ ".log"
  else
    logDir ++ "\\" ++ logFileName ++ ".log"

/-- Follows the spec's words (section 4.2) for the derived file name, with the
forward slash written there taken literally: Never gives dir/name.log, otherwise
dir/name_timestamp.log with timestamp YYYYMMDD, YYYYMMDD_HH or YYYYMMDD_HHMM. -/
def specFileName (dir pfx : String) (k : RotationKind) (t : SYSTEMTIME) : String :=
  match k with
  | .ROTATE_NEVER => dir ++ "/" ++ pfx ++ ".log"
  | .ROTATE_DAILY =>
      dir ++ "/" ++ pfx ++ "_" ++ padNum 4 t.wYear ++ padNum 2 t.wMonth ++ padNum 2 t.wDay ++
        ".log"
  | .ROTATE_HOURLY =>
      dir ++ "/" ++ pfx ++ "_" ++ padNum 4 t.wYear ++ padNum 2 t.wMonth ++ padNum 2 t.wDay ++
        "_" ++ padNum 2 t.wHour ++ ".log"
  | .ROTATE_MINUTELY =>
      dir ++ "/" ++ pfx ++ "_" ++ padNum 4 t.wYear ++ padNum 2 t.wMonth ++ padNum 2 t.wDay ++
        "_" ++ padNum 2 t.wHour ++ padNum 2 t.wMinute ++ ".log"

/-- The spec's file-name scheme amended only in the path separator: the code joins
directory and file name with a Windows backslash. -/
def specFileNameBackslash (dir pfx : String) (k : RotationKind) (t : SYSTEMTIME) : String :=
  match k with
  | .ROTATE_NEVER => dir ++ "\\" ++ pfx ++ ".log"
  | .ROTATE_DAILY =>
      dir ++ "\\" ++ pfx ++ "_" ++ padNum 4 t.wYear ++ padNum 2 t.wMonth ++ padNum 2 t.wDay ++
        ".log"
  | .ROTATE_HOURLY =>
      dir ++ "\\" ++ pfx ++ "_" ++ padNum 4 t.wYear ++ padNum 2 t.wMonth ++ padNum 2 t.wDay ++
        "_" ++ padNum 2 t.wHour ++ ".log"
  | .ROTATE_MINUTELY =>
      dir ++ "\\" ++ pfx ++ "_" ++ padNum 4 t.wYear ++ padNum 2 t.wMonth ++ padNum 2 t.wDay ++
        "_" ++ padNum 2 t.wHour ++ padNum 2 t.wMinute ++ ".log"

/-- Necessary condition for a log line to start with an RFC3339 timestamp carrying a
signed UTC offset: the segment before the first space (the timestamp contains no
space) must contain a plus sign, or a minus sign past the two date hyphens (which
sit at indices 4 and 7; a signed numeric offset sits after the seconds, index 19
or later, so index 10 cleanly separates the two). -/
def hasSignedUtcOffset (line : String) : Bool :=
  let ts := line.toList.takeWhile (fun c => c != ' ')
  ts.contains '+' || (ts.drop 10).contains '-'

/-- Follows the amended wording for the record text: a zero-padded local
timestamp YYYY-MM-DDTHH:MM:SS.mmm with millisecond precision and no UTC offset,
a space, the bracketed level name, a space, the message, a newline. -/
def specLogLine (st : SYSTEMTIME) (lvl : Level) (msg : String) : String :=
  (padNum 4 st.wYear ++ "-" ++ padNum 2 st.wMonth ++ "-" ++ padNum 2 st.wDay ++ "T" ++
    padNum 2 st.wHour ++ ":" ++ padNum 2 st.wMinute ++ ":" ++ padNum 2 st.wSecond ++ "." ++
    padNum 3 st.wMilliseconds) ++ " [" ++ levelToString lvl ++ "] " ++ msg ++ "\n"

/-- A fixed concrete calendar snapshot: 2024-01-02T03:04:05.006 local time. -/
def t1 : SYSTEMTIME := ⟨2024, 1, 2, 3, 4, 5, 6⟩

/-- C4: for every pair of calendar snapshots, the rotation decision is: Never is
always false; Minutely iff any of minute, hour, day, month, year differs; Hourly
iff any of hour, day, month, year differs; Daily iff any of day, month, year
differs. -/
theorem checkRotation_decision (last now : SYSTEMTIME) :
    shouldRotate .ROTATE_NEVER last now = false ∧
    (shouldRotate .ROTATE_MINUTELY last now = true ↔
      (now.wMinute ≠ last.wMinute ∨ now.wHour ≠ last.wHour ∨ now.wDay ≠ last.wDay ∨
        now.wMonth ≠ last.wMonth ∨ now.wYear ≠ last.wYear)) ∧
    (shouldRotate .ROTATE_HOURLY last now = true ↔
      (now.wHour ≠ last.wHour ∨ now.wDay ≠ last.wDay ∨
        now.wMonth ≠ last.wMonth ∨ now.wYear ≠ last.wYear)) ∧
    (shouldRotate .ROTATE_DAILY last now = true ↔
      (now.wDay ≠ last.wDay ∨ now.wMonth ≠ last.wMonth ∨ now.wYear ≠ last.wYear)) := by
  refine ⟨rfl, ?_, ?_, ?_⟩ <;>
    simp [shouldRotate, Bool.or_eq_true, bne_iff_ne, or_assoc]

/-- C5 counterexample: at a concrete directory, name and snapshot the generated
file name joins directory and name with a backslash, not the forward slash the
claim's template writes. -/
theorem generateLogFileName_slash_counterexample :
    generateLogFileName "logs" "app" .ROTATE_NEVER t1 ≠
      specFileName "logs" "app" .ROTATE_NEVER t1 := by
  decide

/-- C5 amended: for every directory, name, granularity and snapshot, the derived
file name follows the spec's scheme with the path separator amended to a
backslash: Never gives dir\name.log, Daily appends _YYYYMMDD, Hourly _YYYYMMDD_HH,
Minutely _YYYYMMDD_HHMM, all zero-padded, with extension .log. -/
theorem generateLogFileName_spec (dir pfx : String) (k : RotationKind) (t : SYSTEMTIME) :
    generateLogFileName dir pfx k t = specFileNameBackslash dir pfx k t := by
  cases k <;>
    simp [generateLogFileName, specFileNameBackslash, String.append_assoc]

/-- C7 counterexample: at a concrete snapshot and message, the record text built
by `log` carries no signed UTC offset in its timestamp, contradicting the claim
that the timestamp includes a signed UTC offset. -/
theorem formatLogLine_no_offset_counterexample :
    hasSignedUtcOffset (formatLogLine t1 .LOG_INFO "hello") = false := by
  decide

/-- C7 amended: for every snapshot, level and message, the text handed to the
ring buffer is the zero-padded local timestamp YYYY-MM-DDTHH:MM:SS.mmm (millisecond
precision, no UTC offset), a space, the bracketed level name, a space, the
message, and a trailing newline. -/
theorem formatLogLine_spec (st : SYSTEMTIME) (lvl : Level) (msg : String) :
    formatLogLine st lvl msg = specLogLine st lvl msg := by
  cases lvl <;> rfl

/-- `Logger::BUFFER_SIZE`, src/logger.h line 30. -/
def BUFFER_SIZE : Nat := 1024

/-- One ring-buffer cell, src/logger.h lines 25-28 (`struct LogEntry`). -/
structure LogEntry where
  ready : Bool
  message : String
deriving DecidableEq, Repr

/-- The mutable state of a `Logger`, src/logger.h lines 30-41.  The file handle is
modelled as `none` for `INVALID_HANDLE_VALUE` and `some content` for an open file
whose appended records are `content`; the thread handle as a flag. -/
structure LoggerState where
  level : Level
  logDir : String
  logFileName : String
  rotationKind : RotationKind
  lastRotationTime : SYSTEMTIME
  hFile : Option (List String)
  head : Nat
  tail : Nat
  buffer : Nat → LogEntry
  logThread : Bool
  running : Bool

/-- The state established by the private constructor `Logger::Logger`,
src/logger.h lines 112-120, with `GetLocalTime` reading `t0`; the in-class
initializers give `head = tail = 0`, all-unready slots and `running = true`. -/
def initialState (t0 : SYSTEMTIME) : LoggerState where
  level := .LOG_DEBUG
  logDir := ""
  logFileName := ""
  rotationKind := .ROTATE_NEVER
  lastRotationTime := t0
  hFile := none
  head := 0
  tail := 0
  buffer := fun _ => { ready := false, message := "" }
  logThread := false
  running := true

/-- A completed execution of `Logger::log`, src/logger.h lines 321-338, as one
atomic operation (the single-producer view; `st` is the `GetLocalTime` reading
inside `currentTime`).  Returns `none` when the full-buffer wait at line 329
would block (`nextHead == tail`), so a blocked call produces no state at all. -/
def logOp (s : LoggerState) (st : SYSTEMTIME) (msgLevel : Level) (message : String) :
    Option LoggerState :=
  if msgLevel.toNat < s.level.toNat then
    some s
  else
    let nextHead := (s.head + 1) % BUFFER_SIZE
    if nextHead = s.tail then
      none
    else
      let formattedMessage := formatLogLine st msgLevel message
      some { s with
        buffer := Function.update s.buffer s.head { ready := true, message := formattedMessage }
        head := nextHead }

/-- `Logger::checkRotation`, src/logger.h lines 190-242: the decision of
`shouldRotate` and, when it fires, close the current handle, update
`lastRotationTime` and reopen per `openLogFile` (the outcome of `CreateFileA`
is the external parameter `openResult`). -/
def checkRotationOp (s : LoggerState) (now : SYSTEMTIME)
    (openResult : Option (List String)) : LoggerState :=
  if s.rotationKind = .ROTATE_NEVER then
    s
  else if shouldRotate s.rotationKind s.lastRotationTime now then
    { s with hFile := openResult, lastRotationTime := now }
  else
    s

/-- One pass of the inner drain loop of `Logger::processLogQueue`, src/logger.h
lines 164-176: if `tail != head` and the slot at `tail` is ready, run
`checkRotation`, write the record when the handle is valid, clear the ready flag
and advance `tail`; otherwise the writer leaves the state unchanged. -/
def drainStep (s : LoggerState) (now : SYSTEMTIME)
    (openResult : Option (List String)) : LoggerState :=
  if s.tail = s.head then
    s
  else if (s.buffer s.tail).ready = false then
    s
  else
    let s1 := checkRotationOp s now openResult
    let msg := (s1.buffer s1.tail).message
    let s2 :=
      match s1.hFile with
      | some content => { s1 with hFile := some (content ++ [msg]) }
      | none => s1
    { s2 with
      buffer := Function.update s2.buffer s2.tail { ready := false, message := msg }
      tail := (s2.tail + 1) % BUFFER_SIZE }

/-- `Logger::Init`, src/logger.h lines 122-140: store the configuration, reset
`lastRotationTime` from `GetLocalTime` (= `now`), set `hFile` from `openLogFile`
(outcome = `openResult`), then create the writer thread (`threadCreated` is
whether `CreateThread` succeeded); on failure return `false`.  `Init` never
touches the `running` flag. -/
def initOp (s : LoggerState) (lvl : Level) (dir pfx : String) (rot : RotationKind)
    (now : SYSTEMTIME) (openResult : Option (List String)) (threadCreated : Bool) :
    Bool × LoggerState :=
  let s1 := { s with
    level := lvl
    rotationKind := rot
    logDir := dir
    logFileName := pfx
    lastRotationTime := now
    hFile := openResult
    logThread := threadCreated }
  if threadCreated then (true, s1) else (false, s1)

/-- All slots other than the one at `idx` are unchanged between `s` and s2. -/
def FrameOtherSlots (s s2 : LoggerState) (idx : Nat) : Prop :=
  ∀ i, i ≠ idx → s2.buffer i = s.buffer i

/-- A concrete logger state that has been finalized: the destructor
(src/logger.h lines 142-154) has cleared `running` and closed the file. -/
def finalizedState : LoggerState :=
  { initialState t1 with running := false, logThread := false, hFile := none }

/-- C6 counterexample: with the logger finalized (`running = false`) and a level
at the threshold, `log` is not a no-op: it advances `head` from 0 to 1 (and so
also claims a slot), refuting the claim that a call on a non-running logger has
no side effect. -/
theorem log_after_finalize_counterexample :
    finalizedState.running = false ∧
    finalizedState.head = 0 ∧
    Option.map LoggerState.head (logOp finalizedState t1 .LOG_INFO "x") = some 1 := by
  refine ⟨rfl, rfl, rfl⟩

/-- C6 amended: `log` silently drops the record (returns with the state
unchanged) when the message level is below the configured threshold; the
`running` flag is never consulted, so `log` behaves identically whatever its
value, and a call after finalize still enqueues. -/
theorem log_level_filter_only (s : LoggerState) (st : SYSTEMTIME) (lvl : Level)
    (msg : String) (b : Bool) :
    (lvl.toNat < s.level.toNat → logOp s st lvl msg = some s) ∧
    logOp { s with running := b } st lvl msg =
      Option.map (fun s2 => { s2 with running := b }) (logOp s st lvl msg) := by
  constructor
  · intro h
    simp [logOp, h]
  · by_cases h : lvl.toNat < s.level.toNat
    · simp [logOp, h]
    · by_cases hfull : (s.head + 1) % BUFFER_SIZE = s.tail <;>
        simp [logOp, h, hfull]

/-- C6 amended, witness: at a concrete state (threshold `LOG_INFO`) a `LOG_DEBUG`
record is dropped with no state change. -/
theorem log_level_filter_only_witness :
    logOp { initialState t1 with level := .LOG_INFO } t1 .LOG_DEBUG "m" =
      some { initialState t1 with level := .LOG_INFO } :=
  (log_level_filter_only { initialState t1 with level := .LOG_INFO } t1
    .LOG_DEBUG "m" true).1 (by decide)

/-- C9 counterexample: when `CreateThread` fails, `Init` does return `false`, but
the logger's `running` flag remains `true` (it was never written), refuting the
claim that a failed init leaves the running state false. -/
theorem init_thread_failure_counterexample :
    (initOp (initialState t1) .LOG_INFO "logs" "app" .ROTATE_DAILY t1 none false).1
      = false ∧
    (initOp (initialState t1) .LOG_INFO "logs" "app" .ROTATE_DAILY t1 none
      false).2.running = true := by
  refine ⟨rfl, rfl⟩

/-- C9 amended: for every prior state and configuration, if the writer thread
fails to start then `Init` returns `false`, and the `running` flag is left
exactly as it was (still `true` after construction): `Init` does not mark the
logger not-running. -/
theorem init_thread_failure (s : LoggerState) (lvl : Level) (dir pfx : String)
    (rot : RotationKind) (now : SYSTEMTIME) (openResult : Option (List String)) :
    (initOp s lvl dir pfx rot now openResult false).1 = false ∧
    (initOp s lvl dir pfx rot now openResult false).2.running = s.running := by
  exact ⟨rfl, rfl⟩

/-- Shared characterization of a completed accepted `log` call: all effects of
src/logger.h lines 328-337 on the state's fields. -/
theorem logOp_accept (s : LoggerState) (st : SYSTEMTIME) (lvl : Level) (msg : String)
    (s2 : LoggerState) (hlvl : ¬ lvl.toNat < s.level.toNat)
    (hres : logOp s st lvl msg = some s2) :
    s2.head = (s.head + 1) % BUFFER_SIZE ∧
    s2.buffer s.head = { ready := true, message := formatLogLine st lvl msg } ∧
    (∀ i, i ≠ s.head → s2.buffer i = s.buffer i) ∧
    s2.tail = s.tail ∧
    s2.level = s.level ∧
    s2.logDir = s.logDir ∧
    s2.logFileName = s.logFileName ∧
    s2.rotationKind = s.rotationKind ∧
    s2.lastRotationTime = s.lastRotationTime ∧
    s2.hFile = s.hFile ∧
    s2.logThread = s.logThread ∧
    s2.running = s.running := by
  by_cases hfull : (s.head + 1) % BUFFER_SIZE = s.tail
  · simp [logOp, hlvl, hfull] at hres
  · simp [logOp, hlvl, hfull] at hres
    subst hres
    refine ⟨rfl, Function.update_same _ _ _, ?_, rfl, rfl, rfl, rfl, rfl, rfl, rfl, rfl, rfl⟩
    intro i hi
    exact Function.update_noteq hi _ _

/-- C10: a completed accepted enqueue writes exactly the slot indexed by the
pre-increment `head` (message set to the formatted record, ready flag true),
advances `head` by one modulo 1024, and leaves `tail`, every other slot, and the
whole configuration (level, directory, name, rotation state, file handle,
thread handle, running flag) unchanged. -/
theorem log_frame (s : LoggerState) (st : SYSTEMTIME) (lvl : Level) (msg : String)
    (s2 : LoggerState) (hlvl : ¬ lvl.toNat < s.level.toNat)
    (hres : logOp s st lvl msg = some s2) :
    s2.head = (s.head + 1) % BUFFER_SIZE ∧
    s2.buffer s.head = { ready := true, message := formatLogLine st lvl msg } ∧
    FrameOtherSlots s s2 s.head ∧
    s2.tail = s.tail ∧
    s2.level = s.level ∧
    s2.logDir = s.logDir ∧
    s2.logFileName = s.logFileName ∧
    s2.rotationKind = s.rotationKind ∧
    s2.lastRotationTime = s.lastRotationTime ∧
    s2.hFile = s.hFile ∧
    s2.logThread = s.logThread ∧
    s2.running = s.running :=
  logOp_accept s st lvl msg s2 hlvl hres

/-- C10 witness: the frame conditions hold concretely for an accepted enqueue on
the freshly constructed state. -/
theorem log_frame_witness :
    ((logOp (initialState t1) t1 .LOG_INFO "m").getD (initialState t1)).head
        = (0 + 1) % BUFFER_SIZE ∧
      ((logOp (initialState t1) t1 .LOG_INFO "m").getD (initialState t1)).buffer 0
        = { ready := true, message := formatLogLine t1 .LOG_INFO "m" } ∧
      FrameOtherSlots (initialState t1)
        ((logOp (initialState t1) t1 .LOG_INFO "m").getD (initialState t1)) 0 := by
  have h := log_frame (initialState t1) t1 .LOG_INFO "m"
    ((logOp (initialState t1) t1 .LOG_INFO "m").getD (initialState t1))
    (by decide) rfl
  exact ⟨h.1, h.2.1, h.2.2.1⟩

/-- A concrete state whose sink is unavailable and whose slot 0 holds an
undrained record: rotation disabled, `hFile` invalid, `tail = 0`, `head = 1`. -/
def outageState : LoggerState :=
  { initialState t1 with
    head := 1
    buffer := Function.update (fun _ => { ready := false, message := "" }) 0
      { ready := true, message := "rec" } }

/-- C8: when the file handle is invalid and the rotation check does not fire, a
drain pass still drains the ready record at `tail`: the ready flag is cleared,
`tail` advances by one modulo 1024, every other slot is untouched, and the bytes
are discarded — the handle stays invalid and no content is appended anywhere. -/
theorem drain_without_sink (s : LoggerState) (now : SYSTEMTIME)
    (openResult : Option (List String)) (hfile : s.hFile = none)
    (hrot : shouldRotate s.rotationKind s.lastRotationTime now = false)
    (hne : s.tail ≠ s.head) (hready : (s.buffer s.tail).ready = true) :
    (drainStep s now openResult).hFile = none ∧
    ((drainStep s now openResult).buffer s.tail).ready = false ∧
    (drainStep s now openResult).tail = (s.tail + 1) % BUFFER_SIZE ∧
    FrameOtherSlots s (drainStep s now openResult) s.tail ∧
    (drainStep s now openResult).head = s.head := by
  have hcr : checkRotationOp s now openResult = s := by
    unfold checkRotationOp
    by_cases hk : s.rotationKind = .ROTATE_NEVER <;> simp [hk, hrot]
  refine ⟨?_, ?_, ?_, ?_, ?_⟩ <;>
    simp [drainStep, hne, hready, hcr, hfile, FrameOtherSlots,
      Function.update_same, Function.update_noteq]
  intro i hi
  exact Function.update_noteq hi _ _

/-- C8 witness: the sink-outage drain behaviour holds concretely on
`outageState`. -/
theorem drain_without_sink_witness :
    (drainStep outageState t1 none).hFile = none ∧
    ((drainStep outageState t1 none).buffer 0).ready = false ∧
    (drainStep outageState t1 none).tail = (0 + 1) % BUFFER_SIZE ∧
    FrameOtherSlots outageState (drainStep outageState t1 none) 0 ∧
    (drainStep outageState t1 none).head = 1 :=
  drain_without_sink outageState t1 none rfl rfl (by decide) (by decide)

/-- Cyclic distance from index `a` forward to index `b` in the ring of size
`BUFFER_SIZE`; the occupied region `[tail, head)` mod N is exactly the set of
indices `i` with `dist tail i < dist tail head`. -/
def dist (a b : Nat) : Nat := (b + BUFFER_SIZE - a) % BUFFER_SIZE

/-- The ring-buffer invariant: both indices are in range and a slot's ready flag
is true exactly when the slot lies in the occupied region `[tail, head)` mod N,
i.e. when it holds a record that has been enqueued but not yet drained. -/
def RingInv (s : LoggerState) : Prop :=
  s.head < BUFFER_SIZE ∧ s.tail < BUFFER_SIZE ∧
    ∀ i, i < BUFFER_SIZE →
      ((s.buffer i).ready = true ↔ dist s.tail i < dist s.tail s.head)

/-- The records currently occupying the ring, from `tail` to `head` in drain
order. -/
def pending (s : LoggerState) : List String :=
  (List.range (dist s.tail s.head)).map
    fun k => (s.buffer ((s.tail + k) % BUFFER_SIZE)).message

/-- An operation of the logger's two actors: a producer call to `log` or one
drain pass of the writer. -/
inductive Op where
  | enq (st : SYSTEMTIME) (lvl : Level) (msg : String)
  | drain (now : SYSTEMTIME) (openResult : Option (List String))

/-- The record text an `enq` publishes (empty when the level filter drops it). -/
def logEvent (s : LoggerState) (st : SYSTEMTIME) (lvl : Level) (msg : String) :
    List String :=
  if lvl.toNat < s.level.toNat then [] else [formatLogLine st lvl msg]

/-- The record text a drain pass consumes (empty when it has nothing to do). -/
def drainEvent (s : LoggerState) : List String :=
  if s.tail = s.head then []
  else if (s.buffer s.tail).ready = false then []
  else [(s.buffer s.tail).message]

/-- One operation applied to a state together with the accumulated enqueue and
drain traces; `none` when a producer would block on a full buffer. -/
def stepOp (acc : LoggerState × List String × List String) (op : Op) :
    Option (LoggerState × List String × List String) :=
  match op with
  | .enq st lvl msg =>
      match logOp acc.1 st lvl msg with
      | none => none
      | some s2 => some (s2, acc.2.1 ++ logEvent acc.1 st lvl msg, acc.2.2)
  | .drain now r =>
      some (drainStep acc.1 now r, acc.2.1, acc.2.2 ++ drainEvent acc.1)

/-- Run a list of operations from an accumulator. -/
def runFrom (acc : LoggerState × List String × List String) :
    List Op → Option (LoggerState × List String × List String)
  | [] => some acc
  | op :: ops =>
      match stepOp acc op with
      | none => none
      | some acc2 => runFrom acc2 ops

/-- Run a list of operations from the freshly constructed logger. -/
def runOps (t0 : SYSTEMTIME) (ops : List Op) :
    Option (LoggerState × List String × List String) :=
  runFrom (initialState t0, [], []) ops

/-- The trace invariant: the ring invariant holds and the enqueue trace is the
drain trace followed by the records still in the ring. -/
def TraceInv (acc : LoggerState × List String × List String) : Prop :=
  RingInv acc.1 ∧ acc.2.1 = acc.2.2 ++ pending acc.1

theorem dist_bound (a b : Nat) : dist a b < BUFFER_SIZE := by
  unfold dist BUFFER_SIZE
  omega

theorem dist_self (a : Nat) (_ha : a < BUFFER_SIZE) : dist a a = 0 := by
  unfold dist BUFFER_SIZE at *
  omega

theorem add_dist (a b : Nat) (ha : a < BUFFER_SIZE) (hb : b < BUFFER_SIZE) :
    (a + dist a b) % BUFFER_SIZE = b := by
  unfold dist BUFFER_SIZE at *
  omega

theorem dist_add (a k : Nat) (ha : a < BUFFER_SIZE) (hk : k < BUFFER_SIZE) :
    dist a ((a + k) % BUFFER_SIZE) = k := by
  unfold dist BUFFER_SIZE at *
  omega

theorem dist_enq (t h : Nat) (ht : t < BUFFER_SIZE) (hh : h < BUFFER_SIZE)
    (hfull : (h + 1) % BUFFER_SIZE ≠ t) :
    dist t ((h + 1) % BUFFER_SIZE) = dist t h + 1 := by
  unfold dist BUFFER_SIZE at *
  omega

theorem dist_drain (t x : Nat) (ht : t < BUFFER_SIZE) (hx : x < BUFFER_SIZE)
    (hne : x ≠ t) :
    dist t x = dist ((t + 1) % BUFFER_SIZE) x + 1 := by
  unfold dist BUFFER_SIZE at *
  omega

theorem dist_succ_self (t : Nat) (ht : t < BUFFER_SIZE) :
    dist ((t + 1) % BUFFER_SIZE) t = BUFFER_SIZE - 1 := by
  unfold dist BUFFER_SIZE at *
  omega

theorem dist_ne_of_ne (t i j : Nat) (ht : t < BUFFER_SIZE) (hi : i < BUFFER_SIZE)
    (hj : j < BUFFER_SIZE) (hne : i ≠ j) : dist t i ≠ dist t j := by
  intro hEq
  apply hne
  have h1 := add_dist t i ht hi
  have h2 := add_dist t j ht hj
  rw [hEq, h2] at h1
  exact h1.symm

/-- Preservation of the trace invariant by a completed `log` call. -/
theorem logOp_preserves (s s2 : LoggerState) (e d : List String)
    (st : SYSTEMTIME) (lvl : Level) (msg : String)
    (hinv : RingInv s) (htr : e = d ++ pending s)
    (h : logOp s st lvl msg = some s2) :
    RingInv s2 ∧ e ++ logEvent s st lvl msg = d ++ pending s2 := by
  obtain ⟨hh, ht, hready⟩ := hinv
  by_cases hl : lvl.toNat < s.level.toNat
  · simp only [logOp, if_pos hl, Option.some.injEq] at h
    subst h
    constructor
    · exact ⟨hh, ht, hready⟩
    · simp [logEvent, hl, htr]
  · have hfull : (s.head + 1) % BUFFER_SIZE ≠ s.tail := by
      intro hfl
      simp [logOp, hl, hfl] at h
    obtain ⟨e1, e2, e3, e4, _, _, _, _, _, _, _, _⟩ :=
      logOp_accept s st lvl msg s2 hl h
    have hlen : dist s.tail ((s.head + 1) % BUFFER_SIZE) = dist s.tail s.head + 1 :=
      dist_enq s.tail s.head ht hh hfull
    have hpend : pending s2 = pending s ++ [formatLogLine st lvl msg] := by
      have hmap :
          List.map (fun k => (s2.buffer ((s.tail + k) % BUFFER_SIZE)).message)
            (List.range (dist s.tail s.head)) =
          List.map (fun k => (s.buffer ((s.tail + k) % BUFFER_SIZE)).message)
            (List.range (dist s.tail s.head)) := by
        apply List.map_congr_left
        intro k hk
        rw [List.mem_range] at hk
        have hkN : k < BUFFER_SIZE := hk.trans (dist_bound _ _)
        have hne2 : (s.tail + k) % BUFFER_SIZE ≠ s.head := by
          intro hEq
          have hda := dist_add s.tail k ht hkN
          rw [hEq] at hda
          omega
        rw [e3 _ hne2]
      unfold pending
      rw [e1, e4, hlen, List.range_succ, List.map_append, hmap,
        List.map_singleton, add_dist s.tail s.head ht hh, e2]
    constructor
    · refine ⟨by rw [e1]; unfold BUFFER_SIZE; omega, by rw [e4]; exact ht, ?_⟩
      intro i hi
      rw [e1, e4]
      by_cases hih : i = s.head
      · subst hih
        rw [e2]
        simp [hlen]
      · rw [e3 _ hih, hlen]
        have hd := dist_ne_of_ne s.tail i s.head ht hi hh hih
        rw [hready i hi]
        omega
    · rw [htr, hpend, logEvent, if_neg hl, List.append_assoc]

/-- Drain passes that find nothing ready leave the state unchanged. -/
theorem drainStep_idle (s : LoggerState) (now : SYSTEMTIME)
    (r : Option (List String))
    (h : s.tail = s.head ∨ (s.buffer s.tail).ready = false) :
    drainStep s now r = s := by
  unfold drainStep
  by_cases hth : s.tail = s.head
  · rw [if_pos hth]
  · have hrd : (s.buffer s.tail).ready = false := h.resolve_left hth
    rw [if_neg hth, if_pos hrd]

theorem checkRotationOp_frame (s : LoggerState) (now : SYSTEMTIME)
    (r : Option (List String)) :
    (checkRotationOp s now r).buffer = s.buffer ∧
    (checkRotationOp s now r).head = s.head ∧
    (checkRotationOp s now r).tail = s.tail := by
  unfold checkRotationOp
  split
  · exact ⟨rfl, rfl, rfl⟩
  split
  · exact ⟨rfl, rfl, rfl⟩
  · exact ⟨rfl, rfl, rfl⟩

/-- Characterization of a firing drain pass: the slot at `tail` keeps its
message with the ready flag cleared and `tail` advances. -/
theorem drainStep_fire (s : LoggerState) (now : SYSTEMTIME)
    (r : Option (List String)) (hne : ¬ s.tail = s.head)
    (hready : (s.buffer s.tail).ready = true) :
    (drainStep s now r).buffer = Function.update s.buffer s.tail
      { ready := false, message := (s.buffer s.tail).message } ∧
    (drainStep s now r).tail = (s.tail + 1) % BUFFER_SIZE ∧
    (drainStep s now r).head = s.head := by
  obtain ⟨hb, hhd, htl⟩ := checkRotationOp_frame s now r
  unfold drainStep
  rw [if_neg hne, if_neg (by simp [hready])]
  rcases hf : (checkRotationOp s now r).hFile with _ | c <;>
    simp [hf, hb, hhd, htl]

/-- Preservation of the trace invariant by one writer drain pass. -/
theorem drainStep_preserves (s : LoggerState) (e d : List String)
    (now : SYSTEMTIME) (r : Option (List String))
    (hinv : RingInv s) (htr : e = d ++ pending s) :
    RingInv (drainStep s now r) ∧
    e = (d ++ drainEvent s) ++ pending (drainStep s now r) := by
  obtain ⟨hh, ht, hready⟩ := hinv
  by_cases h1 : s.tail = s.head
  · rw [drainStep_idle s now r (Or.inl h1)]
    constructor
    · exact ⟨hh, ht, hready⟩
    · simp [drainEvent, h1, htr]
  by_cases h2 : (s.buffer s.tail).ready = false
  · rw [drainStep_idle s now r (Or.inr h2)]
    constructor
    · exact ⟨hh, ht, hready⟩
    · simp [drainEvent, h1, h2, htr]
  have hrdy : (s.buffer s.tail).ready = true := by
    cases hcase : (s.buffer s.tail).ready
    · exact absurd hcase h2
    · rfl
  obtain ⟨hb, htl, hhd⟩ := drainStep_fire s now r h1 hrdy
  have hlen0 : dist s.tail s.head ≠ 0 := by
    intro h0
    apply h1
    have hda := add_dist s.tail s.head ht hh
    rw [h0, Nat.add_zero, Nat.mod_eq_of_lt ht] at hda
    exact hda
  have hdec : dist s.tail s.head = dist ((s.tail + 1) % BUFFER_SIZE) s.head + 1 :=
    dist_drain s.tail s.head ht hh (Ne.symm h1)
  have hde : drainEvent s = [(s.buffer s.tail).message] := by
    simp [drainEvent, h1, h2]
  have hpend : pending s =
      (s.buffer s.tail).message :: pending (drainStep s now r) := by
    unfold pending
    rw [hb, htl, hhd, hdec, List.range_succ_eq_map, List.map_cons, List.map_map]
    congr 1
    · simp [Nat.mod_eq_of_lt ht]
    · apply List.map_congr_left
      intro k hk
      rw [List.mem_range] at hk
      have hkN : k + 1 < BUFFER_SIZE := by
        have hbd := dist_bound s.tail s.head
        omega
      have hidx : ((s.tail + 1) % BUFFER_SIZE + k) % BUFFER_SIZE =
          (s.tail + (k + 1)) % BUFFER_SIZE := by
        unfold BUFFER_SIZE at *
        omega
      have hne2 : (s.tail + (k + 1)) % BUFFER_SIZE ≠ s.tail := by
        intro hEq
        have hda := dist_add s.tail (k + 1) ht hkN
        rw [hEq, dist_self s.tail ht] at hda
        omega
      rw [Function.comp_apply, hidx, Function.update_noteq hne2]
  constructor
  · refine ⟨by rw [hhd]; exact hh, by rw [htl]; unfold BUFFER_SIZE; omega, ?_⟩
    intro i hi
    rw [hb, htl, hhd]
    by_cases hit : i = s.tail
    · subst hit
      rw [Function.update_same]
      have hds := dist_succ_self s.tail ht
      have hbd := dist_bound s.tail s.head
      simp only [Bool.false_eq_true, false_iff]
      omega
    · rw [Function.update_noteq hit]
      have hdi := dist_drain s.tail i ht hi hit
      rw [hready i hi]
      omega
  · rw [htr, hpend, hde]
    simp

/-- A producer facing a full buffer (`nextHead == tail`) either blocks (no
resulting state: src/logger.h line 329 waits) or had already been filtered by
level and leaves the state unchanged — it never overwrites and never drops an
accepted record. -/
def NoOverwriteGuard (s : LoggerState) : Prop :=
  ∀ st lvl msg, (s.head + 1) % BUFFER_SIZE = s.tail →
    logOp s st lvl msg = none ∨ logOp s st lvl msg = some s

theorem noOverwriteGuard_all (s : LoggerState) : NoOverwriteGuard s := by
  intro st lvl msg hfull
  by_cases hl : lvl.toNat < s.level.toNat
  · right
    simp [logOp, hl]
  · left
    simp [logOp, hl, hfull]

theorem stepOp_preserves (acc acc2 : LoggerState × List String × List String)
    (op : Op) (hinv : TraceInv acc) (h : stepOp acc op = some acc2) :
    TraceInv acc2 := by
  obtain ⟨s, e, d⟩ := acc
  obtain ⟨hr, htr⟩ := hinv
  cases op with
  | enq st lvl msg =>
    cases hl : logOp s st lvl msg with
    | none => simp [stepOp, hl] at h
    | some s2 =>
      simp only [stepOp, hl, Option.some.injEq] at h
      obtain ⟨hA, hB⟩ := logOp_preserves s s2 e d st lvl msg hr htr hl
      rw [← h]
      exact ⟨hA, hB⟩
  | drain now r =>
    simp only [stepOp, Option.some.injEq] at h
    obtain ⟨hA, hB⟩ := drainStep_preserves s e d now r hr htr
    rw [← h]
    exact ⟨hA, hB⟩

theorem runFrom_inv (ops : List Op) (acc acc2 : LoggerState × List String × List String)
    (hinv : TraceInv acc) (h : runFrom acc ops = some acc2) : TraceInv acc2 := by
  induction ops generalizing acc with
  | nil =>
    simp only [runFrom, Option.some.injEq] at h
    rw [← h]
    exact hinv
  | cons op ops ih =>
    simp only [runFrom] at h
    cases hs : stepOp acc op with
    | none =>
      simp only [hs] at h
      exact Option.noConfusion h
    | some acc1 =>
      simp only [hs] at h
      exact ih acc1 (stepOp_preserves acc acc1 op hinv hs) h

/-- The trace invariant holds at the freshly constructed logger. -/
theorem traceInv_start (t0 : SYSTEMTIME) : TraceInv (initialState t0, [], []) := by
  have h0 : dist 0 0 = 0 := dist_self 0 (by decide)
  refine ⟨⟨?_, ?_, ?_⟩, ?_⟩
  · show (0 : Nat) < BUFFER_SIZE
    decide
  · show (0 : Nat) < BUFFER_SIZE
    decide
  · intro i hi
    simp [initialState, h0]
  · simp [pending, initialState, h0]

/-- C2: in every state reachable by any sequence of enqueue and drain
operations, the ring-buffer invariant holds — the occupied region is
`[tail, head)` mod 1024 and a slot's ready flag is true iff it holds a record
not yet drained — the slot the next enqueue would write is not ready (so an
enqueue never overwrites an undrained record), and a producer that finds
`next == tail` (buffer full) waits rather than overwriting or dropping. -/
theorem ring_buffer_invariant (t0 : SYSTEMTIME) (ops : List Op) (s : LoggerState)
    (e d : List String) (h : runOps t0 ops = some (s, e, d)) :
    RingInv s ∧ (s.buffer s.head).ready = false ∧ NoOverwriteGuard s := by
  have hinv : RingInv s ∧ e = d ++ pending s :=
    runFrom_inv ops _ _ (traceInv_start t0) h
  obtain ⟨⟨hh, ht, hready⟩, _⟩ := hinv
  refine ⟨⟨hh, ht, hready⟩, ?_, noOverwriteGuard_all s⟩
  have hiff := hready s.head hh
  cases hcase : (s.buffer s.head).ready
  · rfl
  · rw [hcase] at hiff
    have hlt := hiff.mp rfl
    omega

/-- C3: for any sequence of operations from a single producer, the drained
records (in the order the writer drains and writes them) followed by the records
still pending in the ring, from tail to head, equal the accepted records in
enqueue order — the writer drains in FIFO order. -/
theorem single_producer_fifo (t0 : SYSTEMTIME) (ops : List Op) (s : LoggerState)
    (e d : List String) (h : runOps t0 ops = some (s, e, d)) :
    e = d ++ pending s := by
  have hinv : RingInv s ∧ e = d ++ pending s :=
    runFrom_inv ops _ _ (traceInv_start t0) h
  exact hinv.2

/-- A concrete operation sequence: two accepted enqueues, then one drain pass. -/
def wOps : List Op :=
  [.enq t1 .LOG_INFO "a", .enq t1 .LOG_WARN "b", .drain t1 none]

/-- The accumulator reached by running `wOps` from the fresh logger. -/
def wAcc : LoggerState × List String × List String :=
  (runOps t1 wOps).getD (initialState t1, [], [])

/-- C2 witness: the invariant conclusions hold in the concrete state reached by
`wOps`. -/
theorem ring_buffer_invariant_witness :
    RingInv wAcc.1 ∧ (wAcc.1.buffer wAcc.1.head).ready = false ∧
      NoOverwriteGuard wAcc.1 :=
  ring_buffer_invariant t1 wOps wAcc.1 wAcc.2.1 wAcc.2.2 rfl

/-- C3 witness: after `wOps`, the enqueue trace is the drain trace followed by
the pending records. -/
theorem single_producer_fifo_witness : wAcc.2.1 = wAcc.2.2 ++ pending wAcc.1 :=
  single_producer_fifo t1 wOps wAcc.1 wAcc.2.1 wAcc.2.2 rfl

/-- The per-producer context of one in-flight `Logger::log` call: a program
counter over the micro-steps of src/logger.h lines 328-337 and the local
variable `nextHead`. -/
structure ProdCtx where
  pc : Nat
  nh : Nat
deriving DecidableEq, Repr

/-- The shared ring state seen by two producer threads concurrently inside
`Logger::log`, plus the slot index each producer writes its record into
(line 335, `buffer[head].message = formattedMessage`), recorded in order. -/
structure ConcState where
  head : Nat
  tail : Nat
  ready : Nat → Bool
  p1 : ProdCtx
  p2 : ProdCtx
  claims1 : List Nat
  claims2 : List Nat

def setCtx (s : ConcState) (which : Bool) (c : ProdCtx) : ConcState :=
  if which then { s with p1 := c } else { s with p2 := c }

def addClaim (s : ConcState) (which : Bool) (i : Nat) : ConcState :=
  if which then { s with claims1 := s.claims1 ++ [i] }
  else { s with claims2 := s.claims2 ++ [i] }

/-- One micro-step of the chosen producer's `Logger::log` call, at the
granularity of the individual atomic accesses in the source:
pc 0, line 328: `nextHead = (head.load(relaxed) + 1) % BUFFER_SIZE`;
pc 1, line 329: load `tail`, spin while `nextHead == tail`;
pc 2, line 335: load `head` again and write the record into `buffer[head]`;
pc 3, line 336: load `head` again and set `buffer[head].ready`;
pc 4, line 337: `head.store(nextHead)`; pc 5: call returned. -/
def stepProducer (s : ConcState) (which : Bool) : ConcState :=
  let c := if which then s.p1 else s.p2
  if c.pc = 0 then
    setCtx s which { pc := 1, nh := (s.head + 1) % BUFFER_SIZE }
  else if c.pc = 1 then
    if c.nh = s.tail then s else setCtx s which { c with pc := 2 }
  else if c.pc = 2 then
    addClaim (setCtx s which { c with pc := 3 }) which s.head
  else if c.pc = 3 then
    { setCtx s which { c with pc := 4 } with ready := Function.update s.ready s.head true }
  else if c.pc = 4 then
    { setCtx s which { c with pc := 5 } with head := c.nh }
  else s

/-- Run an interleaving schedule: `true` steps producer 1, `false` producer 2. -/
def runSched (sched : List Bool) (s : ConcState) : ConcState :=
  sched.foldl stepProducer s

/-- Both producers about to run an accepted `log` call on the fresh ring. -/
def concStart : ConcState where
  head := 0
  tail := 0
  ready := fun _ => false
  p1 := { pc := 0, nh := 0 }
  p2 := { pc := 0, nh := 0 }
  claims1 := []
  claims2 := []

/-- The interleaving in which both producers pass the head load of line 328
before either publishes at line 337, then alternate to completion. -/
def raceSched : List Bool :=
  [true, false, true, false, true, false, true, false, true, false]

/-- C1: the slot claim of `log` is a separate load/compute/store, not an atomic
reservation: under `raceSched` both concurrent producers are assigned the same
slot index 0 and write their records there, and `head` advances only to 1, so
one of the two accepted records is lost — refuting the claim that two producers
are never assigned the same slot. -/
theorem slot_claim_not_atomic :
    (runSched raceSched concStart).claims1 = [0] ∧
    (runSched raceSched concStart).claims2 = [0] ∧
    (runSched raceSched concStart).head = 1 := by
  decide

end CLogger
